import Mathlib

/-!
# Verification of the `serial-can` (slcan) codec

A shallow embedding of the `serial-can` Rust crate: the CAN `Frame` value
type (`src/frame.rs`) and the four slcan commands `Setup`, `Open`, `Close`,
`Transmit` with their `Display` formatting and nom-based `try_parse`
operations (`src/lib.rs`).

Strings are modelled as `List Char` (nom's `take`/`one_of` on `&str`
operate on characters). A parse outcome is modelled by `PRes`:
`ok rest value` for nom's `Ok((rest, value))`, `err .recoverable` for
`Err::Error`, `err .failure` for `Err::Failure` (the error payload is not
carried since no claim inspects it), and `panicked` for a Rust panic
(`unwrap` on `None`, array index out of bounds, out-of-bounds slicing).
-/

set_option maxRecDepth 4000

namespace Slcan

/-- Distinguishes nom's recoverable `Err::Error` from `Err::Failure`. -/
inductive NomErr where
  | recoverable
  | failure
deriving DecidableEq

/-- Result of running a parser: success with the unconsumed remainder and the
value, a typed error, or a Rust panic. -/
inductive PRes (α : Type) where
  | ok : List Char → α → PRes α
  | err : NomErr → PRes α
  | panicked : PRes α
deriving DecidableEq

/-- Result of a non-parsing fallible computation inside a parser: success,
an error that becomes `Err::Failure`, or a Rust panic. -/
inductive DRes (α : Type) where
  | ok : α → DRes α
  | fail : DRes α
  | panicked : DRes α
deriving DecidableEq

/-- nom `take(n)` on `&str`: take exactly `n` characters, recoverable error
(`Eof`) if the input is shorter. -/
def takeChars (n : Nat) (input : List Char) : PRes (List Char) :=
  if n ≤ input.length then .ok (input.drop n) (input.take n)
  else .err .recoverable

/-- nom `tag(t)`: match the literal `t` at the front of the input. -/
def tagStr (t : List Char) (input : List Char) : PRes (List Char) :=
  if input.take t.length = t then .ok (input.drop t.length) t
  else .err .recoverable

/-- nom `one_of(cs)`: consume one character that is a member of `cs`. -/
def oneOf (cs : List Char) (input : List Char) : PRes Char :=
  match input with
  | [] => .err .recoverable
  | c :: rest => if cs.contains c then .ok rest c else .err .recoverable

/-- ASCII decimal digit test, as used by nom's `digit1` (code points
48–57 are `'0'`–`'9'`). -/
def isDigitChar (c : Char) : Bool := 48 ≤ c.toNat && c.toNat ≤ 57

/-- nom `digit1`: consume one or more ASCII decimal digits (maximal munch). -/
def digit1 (input : List Char) : PRes (List Char) :=
  let ds := input.takeWhile isDigitChar
  if ds.isEmpty then .err .recoverable
  else .ok (input.drop ds.length) ds

/-- `char::to_digit(16)`: the value of one hexadecimal digit, either case.
Code points: 48–57 are `'0'`–`'9'`, 97–102 are `'a'`–`'f'` (value 10–15 is
the code point minus 87), 65–70 are `'A'`–`'F'` (code point minus 55). -/
def hexDigitVal (c : Char) : Option Nat :=
  let n := c.toNat
  if 48 ≤ n ∧ n ≤ 57 then some (n - 48)
  else if 97 ≤ n ∧ n ≤ 102 then some (n - 87)
  else if 65 ≤ n ∧ n ≤ 70 then some (n - 55)
  else none

/-- Fold hexadecimal digits left to right; `none` on any non-hex character. -/
def hexFold (acc : Nat) : List Char → Option Nat
  | [] => some acc
  | c :: rest =>
    match hexDigitVal c with
    | none => none
    | some d => hexFold (acc * 16 + d) rest

/-- Rust `uN::from_str_radix(s, 16)` for an unsigned integer type whose
maximum value is `bound`: an optional leading `+` or `-` sign followed by one
or more hex digits of either case; a `-` sign only succeeds when the digits
denote zero (each digit is subtracted with a checked underflow); a value that
exceeds `bound` overflows to an error. -/
def fromStrRadix16 (bound : Nat) (s : List Char) : Option Nat :=
  match s with
  | [] => none
  | c :: rest =>
    let digits := if c = '+' ∨ c = '-' then rest else s
    match digits with
    | [] => none
    | _ :: _ =>
      match hexFold 0 digits with
      | none => none
      | some v =>
        if c = '-' then (if v = 0 then some 0 else none)
        else if v ≤ bound then some v else none

/-- `u16::MAX`. -/
def u16Max : Nat := 2 ^ 16 - 1

/-- `u32::MAX`. -/
def u32Max : Nat := 2 ^ 32 - 1

/-- `u8::MAX`. -/
def u8Max : Nat := 2 ^ 8 - 1

/-- `usize::MAX` (64-bit target). -/
def usizeMax : Nat := 2 ^ 64 - 1

/-- CAN identifier: `embedded_can::Id`, a tagged union of a standard (11-bit)
and an extended (29-bit) identifier, carrying the raw value. -/
inductive CanId where
  | standard : Nat → CanId
  | extended : Nat → CanId
deriving DecidableEq

/-- `embedded_can::StandardId::new`: `Some` exactly when the raw value fits
in 11 bits (`≤ 0x7FF`). -/
def StandardId.new (v : Nat) : Option Nat :=
  if v ≤ 0x7FF then some v else none

/-- `embedded_can::ExtendedId::new`: `Some` exactly when the raw value fits
in 29 bits (`≤ 0x1FFFFFFF`). -/
def ExtendedId.new (v : Nat) : Option Nat :=
  if v ≤ 0x1FFFFFFF then some v else none

/-- `Frame` (src/frame.rs): id, remote flag, declared length, and the fixed
8-slot payload storage (a `[u8; 8]`, modelled as a `List Nat` of length 8). -/
structure Frame where
  id : CanId
  remote : Bool
  dlc : Nat
  data : List Nat
deriving DecidableEq

/-- `Frame::new(id, data)`: data frame constructor. `None` when
`data.len() > 8`; otherwise `dlc = data.len()` and the payload storage is
`data` copied into a zero-initialised `[0u8; 8]`. -/
def Frame.new (id : CanId) (data : List Nat) : Option Frame :=
  if data.length > 8 then none
  else some { id := id, remote := false, dlc := data.length,
              data := data ++ List.replicate (8 - data.length) 0 }

/-- `Frame::new_remote(id, dlc)`: remote frame constructor. `None` when
`dlc > 8`; the payload storage is all zeros. -/
def Frame.new_remote (id : CanId) (dlc : Nat) : Option Frame :=
  if dlc > 8 then none
  else some { id := id, remote := true, dlc := dlc,
              data := List.replicate 8 0 }

/-- `Frame::data()` accessor: `&self.data[0..self.dlc()]`. -/
def Frame.dataAcc (f : Frame) : List Nat := f.data.take f.dlc

/-- `Frame::is_extended()` accessor. -/
def Frame.is_extended (f : Frame) : Bool :=
  match f.id with
  | .extended _ => true
  | .standard _ => false

/-- `Frame::is_remote_frame()` accessor. -/
def Frame.is_remote_frame (f : Frame) : Bool := f.remote

/-- `embedded_can::Frame::is_data_frame()` default method:
`!self.is_remote_frame()`. -/
def Frame.is_data_frame (f : Frame) : Bool := !f.is_remote_frame

/-- The observations `Transmit::new` makes of an arbitrary (foreign)
`embedded_can::Frame` implementation: its `id()`, `is_remote_frame()`,
`dlc()` and `data()` results, unconstrained. -/
structure ForeignFrame where
  id : CanId
  remote : Bool
  dlc : Nat
  data : List Nat
deriving DecidableEq

/-- View of the library's own `Frame` through the trait accessors used by
`Transmit::new`. -/
def Frame.asForeign (f : Frame) : ForeignFrame :=
  { id := f.id, remote := f.is_remote_frame, dlc := f.dlc, data := f.dataAcc }

/-- `Bitrate` (src/lib.rs): the nine bit-rate options with codes 0–8. -/
inductive Bitrate where
  | rate10kbit
  | rate20kbit
  | rate50kbit
  | rate100kbit
  | rate125kbit
  | rate250kbit
  | rate500kbit
  | rate800kbit
  | rate1000kbit
deriving DecidableEq

/-- The `#[repr(u8)]` discriminant of a `Bitrate` (`self.bitrate as u8`). -/
def Bitrate.code : Bitrate → Nat
  | .rate10kbit => 0
  | .rate20kbit => 1
  | .rate50kbit => 2
  | .rate100kbit => 3
  | .rate125kbit => 4
  | .rate250kbit => 5
  | .rate500kbit => 6
  | .rate800kbit => 7
  | .rate1000kbit => 8

/-- `Setup` command. -/
structure Setup where
  bitrate : Bitrate
deriving DecidableEq

/-- `Setup::new`. -/
def Setup.new (bitrate : Bitrate) : Setup := { bitrate := bitrate }

/-- `Open` command. -/
structure Open where
deriving DecidableEq

/-- `Close` command. -/
structure Close where
deriving DecidableEq

/-- `Transmit` command, wrapping a `Frame`. -/
structure Transmit where
  frame : Frame
deriving DecidableEq

/-- `Transmit::new(frame)`: converts a foreign frame to the library frame
through `Frame::new_remote(id, dlc)` or `Frame::new(id, data)` and unwraps
the `Option`; the `unwrap` panic is modelled as `none`. -/
def Transmit.new (g : ForeignFrame) : Option Transmit :=
  if g.remote then (Frame.new_remote g.id g.dlc).map fun f => { frame := f }
  else (Frame.new g.id g.data).map fun f => { frame := f }

/-- `Command` (src/lib.rs): tagged union of the four command types. -/
inductive Command where
  | setupCmd : Setup → Command
  | openCmd : Open → Command
  | closeCmd : Close → Command
  | transmitCmd : Transmit → Command
deriving DecidableEq

/-- Uppercase hexadecimal digit character for a value `< 16`: code point
48 + n for 0–9, 55 + n (that is, 65 + (n − 10)) for 10–15. -/
def hexDigitUpper (n : Nat) : Char :=
  Char.ofNat (if n < 10 then 48 + n else 55 + n)

/-- Rust `{:0wX}` formatting for a value `< 16^w`: exactly `w` uppercase hex
digits, zero-padded, most significant first. -/
def hexPad (width : Nat) (n : Nat) : List Char :=
  match width with
  | 0 => []
  | w + 1 => hexPad w (n / 16) ++ [hexDigitUpper (n % 16)]

/-- Rust `{}` formatting of an unsigned integer: decimal digits. -/
def decFormat (n : Nat) : List Char := Nat.toDigits 10 n

/-- `Display for Setup`: `write!(f, "S{:}\r", self.bitrate as u8)`. -/
def Setup.format (s : Setup) : List Char :=
  'S' :: decFormat s.bitrate.code ++ ['\r']

/-- `Display for Open`: `"O\r"`. -/
def Open.format (_o : Open) : List Char := ['O', '\r']

/-- `Display for Close`: `"C\r"`. -/
def Close.format (_c : Close) : List Char := ['C', '\r']

/-- `Display for Transmit`: kind character from the
(is_extended, is_remote_frame) table, identifier as `{:03X}` (standard) or
`{:08X}` (extended), the dlc as `{}`, the first `dlc` payload bytes as
`{:02X}` each for data frames only, then `'\r'`. -/
def Transmit.format (t : Transmit) : List Char :=
  let cmd : Char :=
    match t.frame.is_extended, t.frame.is_remote_frame with
    | false, false => 't'
    | true, false => 'T'
    | true, true => 'R'
    | false, true => 'r'
  let idPart : List Char :=
    match t.frame.id with
    | .standard v => hexPad 3 v
    | .extended v => hexPad 8 v
  let dataPart : List Char :=
    if t.frame.is_data_frame then (t.frame.dataAcc.map (hexPad 2)).flatten
    else []
  cmd :: idPart ++ decFormat t.frame.dlc ++ dataPart ++ ['\r']

/-- Maps a parsed decimal-digit string to a `Bitrate`, as the `match` in
`Setup::try_parse`; `none` for the `Err::Failure` branch. -/
def bitrateOfStr : List Char → Option Bitrate
  | ['0'] => some .rate10kbit
  | ['1'] => some .rate20kbit
  | ['2'] => some .rate50kbit
  | ['3'] => some .rate100kbit
  | ['4'] => some .rate125kbit
  | ['5'] => some .rate250kbit
  | ['6'] => some .rate500kbit
  | ['7'] => some .rate800kbit
  | ['8'] => some .rate1000kbit
  | _ => none

/-- `Setup::try_parse`: `tuple((tag("S"), digit1, tag("\r")))` followed by the
match on the digit string, whose default arm is an `Err::Failure`. -/
def Setup.try_parse (input : List Char) : PRes Setup :=
  match tagStr ['S'] input with
  | .err e => .err e
  | .panicked => .panicked
  | .ok input1 _ =>
    match digit1 input1 with
    | .err e => .err e
    | .panicked => .panicked
    | .ok input2 ds =>
      match tagStr ['\r'] input2 with
      | .err e => .err e
      | .panicked => .panicked
      | .ok input3 _ =>
        match bitrateOfStr ds with
        | none => .err .failure
        | some b => .ok input3 { bitrate := b }

/-- `Open::try_parse`: `tag("O\r")`. -/
def Open.try_parse (input : List Char) : PRes Open :=
  match tagStr ['O', '\r'] input with
  | .err e => .err e
  | .panicked => .panicked
  | .ok input1 _ => .ok input1 {}

/-- `Close::try_parse`: `tag("C\r")`. -/
def Close.try_parse (input : List Char) : PRes Close :=
  match tagStr ['C', '\r'] input with
  | .err e => .err e
  | .panicked => .panicked
  | .ok input1 _ => .ok input1 {}

/-- The identifier field of `Transmit::try_parse`: `take(3)` +
`u16::from_str_radix` + `StandardId::new(..).unwrap()` for `t`/`r`, and
`take(8)` + `u32::from_str_radix` + `ExtendedId::new(..).unwrap()` for
`T`/`R`. A failed radix conversion is mapped to `Err::Failure`
(`ErrorKind::HexDigit`); the `unwrap` of a `None` identifier panics. -/
def parseId (kind : Char) (input : List Char) : PRes CanId :=
  if kind = 't' ∨ kind = 'r' then
    match takeChars 3 input with
    | .err e => .err e
    | .panicked => .panicked
    | .ok rest idHex =>
      match fromStrRadix16 u16Max idHex with
      | none => .err .failure
      | some v =>
        match StandardId.new v with
        | none => .panicked
        | some sid => .ok rest (CanId.standard sid)
  else
    match takeChars 8 input with
    | .err e => .err e
    | .panicked => .panicked
    | .ok rest idHex =>
      match fromStrRadix16 u32Max idHex with
      | none => .err .failure
      | some v =>
        match ExtendedId.new v with
        | none => .panicked
        | some eid => .ok rest (CanId.extended eid)

/-- The data-decoding loop of `Transmit::try_parse`:
`for i in 0..dlc { array[i] = u8::from_str_radix(&data[i*2..i*2+2], 16)?; }`
over a `[0u8; 8]`. `count` is the number of iterations left, `i` the current
index. Out-of-bounds string slicing or an out-of-bounds `array[i]` write
panics; a failed radix conversion is mapped to `Err::Failure`. -/
def decodeGo (dataField : List Char) (i : Nat) (count : Nat)
    (array : List Nat) : DRes (List Nat) :=
  match count with
  | 0 => .ok array
  | count' + 1 =>
    if i * 2 + 2 ≤ dataField.length then
      match fromStrRadix16 u8Max ((dataField.drop (i * 2)).take 2) with
      | none => .fail
      | some b =>
        if i < array.length then
          decodeGo dataField (i + 1) count' (array.set i b)
        else .panicked
    else .panicked

/-- `Transmit::try_parse` (src/lib.rs lines 138–186): kind character via
`one_of("tTrR")`, identifier field, one-hex-digit dlc, `take(2*dlc)` data
characters whenever `dlc > 0` (for every kind), the decode loop, frame
construction through `Frame::new(id, &data[..dlc]).unwrap()` or
`Frame::new_remote(id, dlc).unwrap()`, the `tag("\r")` terminator, and
finally `Transmit::new(&frame)`. Each `unwrap` of `None` and each
out-of-bounds slice panics. -/
def Transmit.try_parse (input : List Char) : PRes Transmit :=
  match oneOf ['t', 'T', 'r', 'R'] input with
  | .err e => .err e
  | .panicked => .panicked
  | .ok input1 kind =>
    match parseId kind input1 with
    | .err e => .err e
    | .panicked => .panicked
    | .ok input2 id =>
      match takeChars 1 input2 with
      | .err e => .err e
      | .panicked => .panicked
      | .ok input3 dlcHex =>
        match fromStrRadix16 usizeMax dlcHex with
        | none => .err .failure
        | some dlc =>
          match (if dlc > 0 then takeChars (dlc * 2) input3
                 else .ok input3 []) with
          | .err e => .err e
          | .panicked => .panicked
          | .ok input4 dataField =>
            match (if dataField.isEmpty then DRes.ok (List.replicate 8 0)
                   else decodeGo dataField 0 dlc (List.replicate 8 0)) with
            | .fail => .err .failure
            | .panicked => .panicked
            | .ok array =>
              match (if kind = 't' ∨ kind = 'T' then
                       if dlc ≤ array.length then
                         match Frame.new id (array.take dlc) with
                         | none => DRes.panicked
                         | some f => DRes.ok f
                       else DRes.panicked
                     else
                       match Frame.new_remote id dlc with
                       | none => DRes.panicked
                       | some f => DRes.ok f) with
              | .fail => .err .failure
              | .panicked => .panicked
              | .ok frame =>
                match tagStr ['\r'] input4 with
                | .err e => .err e
                | .panicked => .panicked
                | .ok input5 _ =>
                  match Transmit.new frame.asForeign with
                  | none => .panicked
                  | some t => .ok input5 t

/-- One step of nom's `alt`: move to the next branch only on a recoverable
`Err::Error`; `Ok`, `Err::Failure` and panics end the alternation. -/
def altStep (r : PRes Command) (next : Unit → PRes Command) : PRes Command :=
  match r with
  | .err .recoverable => next ()
  | other => other

/-- Maps the value of a parse result, as nom's `map` combinator. -/
def presMap (f : α → β) : PRes α → PRes β
  | .ok rest a => .ok rest (f a)
  | .err e => .err e
  | .panicked => .panicked

/-- `Command::try_parse`: `alt` over the four command parsers in order. -/
def Command.try_parse (input : List Char) : PRes Command :=
  altStep (presMap Command.setupCmd (Setup.try_parse input)) fun _ =>
  altStep (presMap Command.openCmd (Open.try_parse input)) fun _ =>
  altStep (presMap Command.closeCmd (Close.try_parse input)) fun _ =>
  presMap Command.transmitCmd (Transmit.try_parse input)

/-!
## Claim theorems
-/

/-- C1: the Transmit format/parse round-trip FAILS on the code for remote
frames with a nonzero dlc. The frame built by
`Frame::new_remote(StandardId(0x123), 1)` formats to `"r1231\r"`, and
`Transmit::try_parse` on that very string returns a recoverable error
(it demands `2 × dlc` data characters even for remote frames) instead of
the round-tripped command. -/
theorem claim1_remote_roundtrip_fails :
    Frame.new_remote (CanId.standard 0x123) 1 =
      some { id := CanId.standard 0x123, remote := true, dlc := 1,
             data := List.replicate 8 0 } ∧
    Transmit.format
      ⟨{ id := CanId.standard 0x123, remote := true, dlc := 1,
         data := List.replicate 8 0 }⟩ = ['r', '1', '2', '3', '1', '\r'] ∧
    Transmit.try_parse ['r', '1', '2', '3', '1', '\r'] =
      .err .recoverable := by
  refine ⟨by decide, by decide, by decide⟩

/-- C2: an input whose dlc field is the hex digit `9` with a full 18-character
data field makes `Transmit::try_parse` PANIC (the decode loop writes
`array[8]` into a `[u8; 8]`), rather than rejecting the input with an
invalid-DLC parse error as the claim states. -/
theorem claim2_dlc_overflow_panics :
    Transmit.try_parse
      (['t', '1', '2', '3', '9'] ++
        ['1', '1', '2', '2', '3', '3', '4', '4', '5', '5',
         '6', '6', '7', '7', '8', '8', '9', '9'] ++ ['\r']) = .panicked := by
  decide

/-- C3: parsing is NOT total: on the input `"tFFF0\r"` both
`Transmit::try_parse` and `Command::try_parse` panic
(`StandardId::new(0xFFF).unwrap()` on `None`) instead of returning a typed
error value. -/
theorem claim3_parse_panics_on_id_overflow :
    Transmit.try_parse ['t', 'F', 'F', 'F', '0', '\r'] = .panicked ∧
    Command.try_parse ['t', 'F', 'F', 'F', '0', '\r'] = .panicked := by
  refine ⟨by decide, by decide⟩

/-- C4: `Transmit::try_parse` DOES consume a data field for remote frames
with dlc > 0: `"r1231\r"` fails with a recoverable error (the parser demands
2 data characters before the terminator), while `"r12311A\r"` — a remote
frame carrying a data field — parses successfully. The claim's statement
that no data field is consumed for remote frames is false on the code. -/
theorem claim4_remote_data_consumed :
    Transmit.try_parse ['r', '1', '2', '3', '1', '\r'] = .err .recoverable ∧
    Transmit.try_parse ['r', '1', '2', '3', '1', '1', 'A', '\r'] =
      .ok [] ⟨{ id := CanId.standard 0x123, remote := true, dlc := 1,
                data := List.replicate 8 0 }⟩ := by
  refine ⟨by decide, by decide⟩

/-- C5: an out-of-range identifier makes `Transmit::try_parse` PANIC
(`unwrap` of `StandardId::new`/`ExtendedId::new` returning `None`) rather
than fail with an error result: `"t8000\r"` (0x800 > 0x7FF) and
`"T200000000\r"` (0x20000000 > 0x1FFFFFFF) panic, while the boundary values
0x7FF and 0x1FFFFFFF parse successfully. -/
theorem claim5_id_overflow_panics_boundary_ok :
    Transmit.try_parse ['t', '8', '0', '0', '0', '\r'] = .panicked ∧
    Transmit.try_parse
      (['T'] ++ ['2', '0', '0', '0', '0', '0', '0', '0'] ++ ['0', '\r']) =
      .panicked ∧
    Transmit.try_parse ['t', '7', 'F', 'F', '0', '\r'] =
      .ok [] ⟨{ id := CanId.standard 0x7FF, remote := false, dlc := 0,
                data := List.replicate 8 0 }⟩ ∧
    Transmit.try_parse
      (['T'] ++ ['1', 'F', 'F', 'F', 'F', 'F', 'F', 'F'] ++ ['0', '\r']) =
      .ok [] ⟨{ id := CanId.extended 0x1FFFFFFF, remote := false, dlc := 0,
                data := List.replicate 8 0 }⟩ := by
  refine ⟨by decide, by decide, by decide, by decide⟩

/-- C6: for each of the nine `Bitrate` values `b`, `Setup::new(b)` formats
to `"S"` followed by the decimal digit of `b`'s code followed by `'\r'`,
and `Setup::try_parse` on that string returns `Ok` with the same command
and the empty remainder. -/
theorem claim6_setup_roundtrip (b : Bitrate) :
    Setup.format (Setup.new b) =
      ['S', Char.ofNat ('0'.toNat + (Bitrate.code b)), '\r'] ∧
    Setup.try_parse (Setup.format (Setup.new b)) = .ok [] (Setup.new b) := by
  cases b <;> exact ⟨by decide, by decide⟩

/-- C8: each of the three negative inputs — `"S9\r"` (invalid bitrate code),
`"t12\r"` (truncated identifier field), `"tZZZ0\r"` (non-hex identifier) —
fails with an error result in its own parser and in `Command::try_parse`,
producing no command. -/
theorem claim8_negative_inputs_fail :
    Setup.try_parse ['S', '9', '\r'] = .err .failure ∧
    Transmit.try_parse ['t', '1', '2', '\r'] = .err .failure ∧
    Transmit.try_parse ['t', 'Z', 'Z', 'Z', '0', '\r'] = .err .failure ∧
    Command.try_parse ['S', '9', '\r'] = .err .failure ∧
    Command.try_parse ['t', '1', '2', '\r'] = .err .failure ∧
    Command.try_parse ['t', 'Z', 'Z', 'Z', '0', '\r'] = .err .failure := by
  refine ⟨by decide, by decide, by decide, by decide, by decide, by decide⟩

/-- C10: `Transmit::new(&frame)` panics (modelled as `none`) exactly when
the foreign frame reports a data frame whose `data()` is longer than 8
bytes, or a remote frame whose `dlc()` exceeds 8; for every frame within
those bounds it succeeds. -/
theorem claim10_transmit_new_panic_iff (g : ForeignFrame) :
    Transmit.new g = none ↔
      ((g.remote = false ∧ 8 < g.data.length) ∨
       (g.remote = true ∧ 8 < g.dlc)) := by
  unfold Transmit.new Frame.new Frame.new_remote
  cases h : g.remote <;> simp [Option.map] <;> split <;> simp_all

/-- C7: `Frame::new(id, data)` returns `None` exactly when `data` has more
than 8 bytes; on success the declared length equals `data`'s length, the
first `dlc` stored bytes equal `data`, and the remaining storage slots are
zero. `Frame::new_remote(id, n)` returns `None` exactly when `n > 8`, and
on success its 8 payload slots are all zero. -/
theorem claim7_frame_constructors (id : CanId) (data : List Nat) (n : Nat) :
    (Frame.new id data = none ↔ 8 < data.length) ∧
    (∀ f : Frame, Frame.new id data = some f →
      f.id = id ∧ f.remote = false ∧ f.dlc = data.length ∧
      f.data.take data.length = data ∧
      f.data.drop data.length = List.replicate (8 - data.length) 0) ∧
    (Frame.new_remote id n = none ↔ 8 < n) ∧
    (∀ f : Frame, Frame.new_remote id n = some f →
      f.id = id ∧ f.remote = true ∧ f.dlc = n ∧
      f.data = List.replicate 8 0) := by
  refine ⟨?_, ?_, ?_, ?_⟩
  · unfold Frame.new; split <;> simp_all
  · intro f hf
    unfold Frame.new at hf
    split at hf
    · exact absurd hf (by simp)
    · cases hf
      refine ⟨rfl, rfl, rfl, ?_, ?_⟩
      · exact List.take_left data _
      · exact List.drop_left data _
  · unfold Frame.new_remote; split <;> simp_all
  · intro f hf
    unfold Frame.new_remote at hf
    split at hf
    · exact absurd hf (by simp)
    · cases hf
      exact ⟨rfl, rfl, rfl, rfl⟩

/-- Witness for C7 at concrete inputs: an 8-byte payload succeeds with all
8 bytes retained, a 9-byte payload fails, a remote frame with length 9
fails, and a remote frame with length 8 has an all-zero payload store. -/
theorem claim7_frame_constructors_w :
    (Frame.new (CanId.standard 0x123) [1, 2, 3, 4, 5, 6, 7, 8] = none ↔
      8 < ([1, 2, 3, 4, 5, 6, 7, 8] : List Nat).length) ∧
    ((⟨CanId.standard 0x123, false, 8, [1, 2, 3, 4, 5, 6, 7, 8]⟩ :
        Frame).data.take ([1, 2, 3, 4, 5, 6, 7, 8] : List Nat).length =
      [1, 2, 3, 4, 5, 6, 7, 8]) ∧
    (Frame.new (CanId.standard 0x123) [1, 2, 3, 4, 5, 6, 7, 8, 9] = none) ∧
    (Frame.new_remote (CanId.standard 0x123) 9 = none) ∧
    ((⟨CanId.standard 0x123, true, 8, List.replicate 8 0⟩ : Frame).data =
      List.replicate 8 0) := by
  have h := claim7_frame_constructors (CanId.standard 0x123)
    [1, 2, 3, 4, 5, 6, 7, 8] 9
  have h9 := claim7_frame_constructors (CanId.standard 0x123)
    [1, 2, 3, 4, 5, 6, 7, 8, 9] 8
  refine ⟨h.1, ?_, ?_, ?_, ?_⟩
  · exact (h.2.1 ⟨CanId.standard 0x123, false, 8, [1, 2, 3, 4, 5, 6, 7, 8]⟩
      (by decide)).2.2.2.1
  · exact h9.1.mpr (by decide)
  · exact h.2.2.1.mpr (by decide)
  · exact (h9.2.2.2 ⟨CanId.standard 0x123, true, 8, List.replicate 8 0⟩
      (by decide)).2.2.2

/-!
## Case-insensitivity of inbound hex (claim C9)

`lowEq c₁ c₂` relates a character of a wire string to its replacement:
either unchanged, or an uppercase hex letter replaced by its lowercase
counterpart. `LowEqL` is the pointwise extension to strings.
-/

/-- The uppercase hex letters paired with their lowercase counterparts. -/
def lowPairs : List (Char × Char) :=
  [('A', 'a'), ('B', 'b'), ('C', 'c'), ('D', 'd'), ('E', 'e'), ('F', 'f')]

/-- Either the character is unchanged, or an uppercase hex letter is
replaced by its lowercase counterpart. -/
def lowEq (c₁ c₂ : Char) : Prop := c₂ = c₁ ∨ (c₁, c₂) ∈ lowPairs

/-- Pointwise case-relaxation of strings. -/
def LowEqL (s₁ s₂ : List Char) : Prop := List.Forall₂ lowEq s₁ s₂

theorem lowEq_elim {c₁ c₂ : Char} (h : lowEq c₁ c₂) :
    c₂ = c₁ ∨
      (c₁ = 'A' ∧ c₂ = 'a') ∨ (c₁ = 'B' ∧ c₂ = 'b') ∨
      (c₁ = 'C' ∧ c₂ = 'c') ∨ (c₁ = 'D' ∧ c₂ = 'd') ∨
      (c₁ = 'E' ∧ c₂ = 'e') ∨ (c₁ = 'F' ∧ c₂ = 'f') := by
  rcases h with rfl | h
  · exact Or.inl rfl
  · simp only [lowPairs, List.mem_cons, List.not_mem_nil, or_false,
      Prod.mk.injEq] at h
    exact Or.inr h

/-- A hex digit keeps its value under case relaxation. -/
theorem hexDigitVal_lowEq {c₁ c₂ : Char} (h : lowEq c₁ c₂) :
    hexDigitVal c₂ = hexDigitVal c₁ := by
  rcases lowEq_elim h with rfl | h
  · rfl
  · rcases h with ⟨rfl, rfl⟩ | ⟨rfl, rfl⟩ | ⟨rfl, rfl⟩ | ⟨rfl, rfl⟩ |
      ⟨rfl, rfl⟩ | ⟨rfl, rfl⟩ <;> rfl

/-- Case relaxation preserves being (or not being) the `-` sign. -/
theorem lowEq_minus {c₁ c₂ : Char} (h : lowEq c₁ c₂) :
    (c₂ = '-') ↔ (c₁ = '-') := by
  rcases lowEq_elim h with rfl | h
  · exact Iff.rfl
  · rcases h with ⟨rfl, rfl⟩ | ⟨rfl, rfl⟩ | ⟨rfl, rfl⟩ | ⟨rfl, rfl⟩ |
      ⟨rfl, rfl⟩ | ⟨rfl, rfl⟩ <;> simp

/-- Case relaxation preserves being (or not being) a sign character. -/
theorem lowEq_sign {c₁ c₂ : Char} (h : lowEq c₁ c₂) :
    (c₂ = '+' ∨ c₂ = '-') ↔ (c₁ = '+' ∨ c₁ = '-') := by
  rcases lowEq_elim h with rfl | h
  · exact Iff.rfl
  · rcases h with ⟨rfl, rfl⟩ | ⟨rfl, rfl⟩ | ⟨rfl, rfl⟩ | ⟨rfl, rfl⟩ |
      ⟨rfl, rfl⟩ | ⟨rfl, rfl⟩ <;> simp

/-- A character that is not an uppercase hex letter is unchanged by case
relaxation. -/
theorem lowEq_fixed {c₁ c₂ : Char} (h : lowEq c₁ c₂)
    (hne : ¬('A' ≤ c₁ ∧ c₁ ≤ 'F')) : c₂ = c₁ := by
  rcases lowEq_elim h with rfl | h
  · rfl
  · rcases h with ⟨rfl, rfl⟩ | ⟨rfl, rfl⟩ | ⟨rfl, rfl⟩ | ⟨rfl, rfl⟩ |
      ⟨rfl, rfl⟩ | ⟨rfl, rfl⟩ <;> exact absurd (by decide) hne

/-- The hex-digit fold is invariant under case relaxation. -/
theorem hexFold_lowEq {a₁ a₂ : List Char} (h : List.Forall₂ lowEq a₁ a₂) :
    ∀ acc, hexFold acc a₂ = hexFold acc a₁ := by
  induction h with
  | nil => intro acc; rfl
  | cons hc _ ih =>
    intro acc
    simp only [hexFold, hexDigitVal_lowEq hc]
    cases hexDigitVal _ with
    | none => rfl
    | some d => exact ih _

/-- `from_str_radix` (base 16) is invariant under case relaxation of its
input. -/
theorem fromStrRadix16_lowEq {a₁ a₂ : List Char} (b : Nat)
    (h : List.Forall₂ lowEq a₁ a₂) :
    fromStrRadix16 b a₂ = fromStrRadix16 b a₁ := by
  cases h with
  | nil => rfl
  | @cons c₁ c₂ t₁ t₂ hc ht =>
    simp only [fromStrRadix16]
    by_cases hs : c₁ = '+' ∨ c₁ = '-'
    · rw [if_pos ((lowEq_sign hc).mpr hs), if_pos hs]
      cases ht with
      | nil => rfl
      | @cons d₁ d₂ u₁ u₂ hd hu =>
        simp only [hexFold_lowEq (List.Forall₂.cons hd hu) 0]
        cases hexFold 0 (d₁ :: u₁) with
        | none => rfl
        | some v =>
          dsimp only
          by_cases hm : c₁ = '-'
          · rw [if_pos ((lowEq_minus hc).mpr hm), if_pos hm]
          · rw [if_neg (fun hh => hm ((lowEq_minus hc).mp hh)), if_neg hm]
    · rw [if_neg (fun hh => hs ((lowEq_sign hc).mp hh)), if_neg hs]
      simp only [hexFold_lowEq (List.Forall₂.cons hc ht) 0]
      cases hexFold 0 (c₁ :: t₁) with
      | none => rfl
      | some v =>
        dsimp only
        by_cases hm : c₁ = '-'
        · exact absurd (Or.inr hm) hs
        · rw [if_neg (fun hh => hm ((lowEq_minus hc).mp hh)), if_neg hm]

/-- `take(n)` under case relaxation: if it succeeds on the original string
it succeeds on the relaxed string, with field and remainder pointwise
related. -/
theorem takeChars_ok_lowEq {s₁ s₂ : List Char} (n : Nat) (h : LowEqL s₁ s₂)
    {r₁ a₁ : List Char} (hp : takeChars n s₁ = .ok r₁ a₁) :
    takeChars n s₂ = .ok (s₂.drop n) (s₂.take n) ∧
      List.Forall₂ lowEq a₁ (s₂.take n) ∧
      List.Forall₂ lowEq r₁ (s₂.drop n) := by
  have hlen := List.Forall₂.length_eq h
  unfold takeChars at hp ⊢
  split at hp
  next hle =>
    cases hp
    rw [if_pos (hlen ▸ hle)]
    exact ⟨rfl, List.forall₂_take n h, List.forall₂_drop n h⟩
  next => cases hp

/-- `tag("\r")` under case relaxation: the terminator character is not an
uppercase hex letter, so it is matched by the relaxed string as well. -/
theorem tagCR_ok_lowEq {s₁ s₂ : List Char} (h : LowEqL s₁ s₂)
    {r₁ a₁ : List Char} (hp : tagStr ['\r'] s₁ = .ok r₁ a₁) :
    tagStr ['\r'] s₂ = .ok (s₂.drop 1) a₁ ∧
      List.Forall₂ lowEq r₁ (s₂.drop 1) := by
  unfold tagStr at hp ⊢
  simp only [List.length_singleton] at hp ⊢
  split at hp
  next heq =>
    cases hp
    have h1 : List.Forall₂ lowEq (s₁.take 1) (s₂.take 1) :=
      List.forall₂_take 1 h
    rw [heq, List.forall₂_cons_left_iff] at h1
    obtain ⟨c₂, l₂, hc, hl, hs2⟩ := h1
    rw [List.forall₂_nil_left_iff] at hl
    subst hl
    have hc2 : c₂ = '\r' := lowEq_fixed hc (by decide)
    subst hc2
    rw [if_pos (by rw [hs2])]
    exact ⟨rfl, List.forall₂_drop 1 h⟩
  next => cases hp

/-- The data-decoding loop is invariant under case relaxation of the data
field. -/
theorem decodeGo_lowEq {d₁ d₂ : List Char}
    (h : List.Forall₂ lowEq d₁ d₂) :
    ∀ count i array, decodeGo d₂ i count array = decodeGo d₁ i count array := by
  intro count
  induction count with
  | zero => intro i array; rfl
  | succ c ih =>
    intro i array
    have hlen := List.Forall₂.length_eq h
    simp only [decodeGo, ← hlen]
    by_cases hcond : i * 2 + 2 ≤ d₁.length
    · rw [if_pos hcond, if_pos hcond]
      rw [fromStrRadix16_lowEq u8Max
        (List.forall₂_take 2 (List.forall₂_drop (i * 2) h))]
      cases fromStrRadix16 u8Max ((d₁.drop (i * 2)).take 2) with
      | none => rfl
      | some b =>
        dsimp only
        by_cases hib : i < array.length
        · rw [if_pos hib, if_pos hib, ih]
        · rw [if_neg hib, if_neg hib]
    · rw [if_neg hcond, if_neg hcond]

/-- The identifier field of `Transmit::try_parse` is invariant under case
relaxation: the same identifier is produced and the remainders stay
pointwise related. -/
theorem parseId_ok_lowEq {s₁ s₂ : List Char} (k : Char) (h : LowEqL s₁ s₂)
    {r₁ : List Char} {id : CanId} (hp : parseId k s₁ = .ok r₁ id) :
    ∃ r₂, parseId k s₂ = .ok r₂ id ∧ LowEqL r₁ r₂ := by
  unfold parseId at hp ⊢
  by_cases hk : k = 't' ∨ k = 'r'
  · rw [if_pos hk] at hp ⊢
    cases htc : takeChars 3 s₁ with
    | err e => rw [htc] at hp; cases hp
    | panicked => rw [htc] at hp; cases hp
    | ok rest1 idHex1 =>
      rw [htc] at hp
      obtain ⟨htc2, hhex, hrest⟩ := takeChars_ok_lowEq 3 h htc
      rw [htc2]
      dsimp only at hp ⊢
      rw [fromStrRadix16_lowEq u16Max hhex]
      cases hfs : fromStrRadix16 u16Max idHex1 with
      | none => rw [hfs] at hp; cases hp
      | some v =>
        rw [hfs] at hp
        dsimp only at hp ⊢
        cases hsid : StandardId.new v with
        | none => rw [hsid] at hp; cases hp
        | some sid =>
          rw [hsid] at hp
          dsimp only at hp
          cases hp
          exact ⟨s₂.drop 3, rfl, hrest⟩
  · rw [if_neg hk] at hp ⊢
    cases htc : takeChars 8 s₁ with
    | err e => rw [htc] at hp; cases hp
    | panicked => rw [htc] at hp; cases hp
    | ok rest1 idHex1 =>
      rw [htc] at hp
      obtain ⟨htc2, hhex, hrest⟩ := takeChars_ok_lowEq 8 h htc
      rw [htc2]
      dsimp only at hp ⊢
      rw [fromStrRadix16_lowEq u32Max hhex]
      cases hfs : fromStrRadix16 u32Max idHex1 with
      | none => rw [hfs] at hp; cases hp
      | some v =>
        rw [hfs] at hp
        dsimp only at hp ⊢
        cases heid : ExtendedId.new v with
        | none => rw [heid] at hp; cases hp
        | some eid =>
          rw [heid] at hp
          dsimp only at hp
          cases hp
          exact ⟨s₂.drop 8, rfl, hrest⟩

/-- `Transmit::try_parse` under case relaxation of everything after the kind
character: a successful parse stays successful with the same command, and
the remainders stay pointwise related. -/
theorem transmit_try_parse_lowEq {s₁ s₂ : List Char} (k : Char)
    (h : LowEqL s₁ s₂) {r₁ : List Char} {t : Transmit}
    (hp : Transmit.try_parse (k :: s₁) = .ok r₁ t) :
    ∃ r₂, Transmit.try_parse (k :: s₂) = .ok r₂ t ∧ LowEqL r₁ r₂ := by
  unfold Transmit.try_parse oneOf at hp ⊢
  dsimp only at hp ⊢
  by_cases hk : (['t', 'T', 'r', 'R'] : List Char).contains k
  case neg => rw [if_neg hk] at hp; cases hp
  rw [if_pos hk] at hp ⊢
  dsimp only at hp ⊢
  cases hpid : parseId k s₁ with
  | err e => rw [hpid] at hp; cases hp
  | panicked => rw [hpid] at hp; cases hp
  | ok rid1 id =>
    rw [hpid] at hp
    dsimp only at hp
    obtain ⟨rid2, hpid2, hrel1⟩ := parseId_ok_lowEq k h hpid
    rw [hpid2]
    dsimp only
    cases hdl : takeChars 1 rid1 with
    | err e => rw [hdl] at hp; cases hp
    | panicked => rw [hdl] at hp; cases hp
    | ok r3 dlcHex1 =>
      rw [hdl] at hp
      dsimp only at hp
      obtain ⟨hdl2, hhex, hrel2⟩ := takeChars_ok_lowEq 1 hrel1 hdl
      rw [hdl2]
      dsimp only
      rw [fromStrRadix16_lowEq usizeMax hhex]
      cases hfs : fromStrRadix16 usizeMax dlcHex1 with
      | none => rw [hfs] at hp; cases hp
      | some dlc =>
        rw [hfs] at hp
        dsimp only at hp ⊢
        by_cases hdlc : dlc > 0
        · rw [if_pos hdlc] at hp ⊢
          cases hdt : takeChars (dlc * 2) r3 with
          | err e => rw [hdt] at hp; cases hp
          | panicked => rw [hdt] at hp; cases hp
          | ok r4 dataField1 =>
            rw [hdt] at hp
            dsimp only at hp
            obtain ⟨hdt2, hdata, hrel3⟩ :=
              takeChars_ok_lowEq (dlc * 2) hrel2 hdt
            rw [hdt2]
            dsimp only
            have hlen1 := List.Forall₂.length_eq hdata
            have hemp : (List.take (dlc * 2) (List.drop 1 rid2)).isEmpty =
                dataField1.isEmpty := by
              rcases dataField1 with _ | ⟨c, cs⟩
              · rw [List.length_eq_zero.mp hlen1.symm]
              · rcases hx : List.take (dlc * 2) (List.drop 1 rid2) with
                  _ | ⟨d, ds⟩
                · rw [hx] at hlen1; simp at hlen1
                · rfl
            rw [hemp, decodeGo_lowEq hdata]
            cases hdec : (if dataField1.isEmpty then
                DRes.ok (List.replicate 8 0)
              else decodeGo dataField1 0 dlc (List.replicate 8 0)) with
            | fail => rw [hdec] at hp; cases hp
            | panicked => rw [hdec] at hp; cases hp
            | ok array =>
              rw [hdec] at hp
              dsimp only at hp ⊢
              cases hfr : (if k = 't' ∨ k = 'T' then
                  if dlc ≤ array.length then
                    match Frame.new id (array.take dlc) with
                    | none => DRes.panicked
                    | some f => DRes.ok f
                  else DRes.panicked
                else
                  match Frame.new_remote id dlc with
                  | none => DRes.panicked
                  | some f => DRes.ok f) with
              | fail => rw [hfr] at hp; cases hp
              | panicked => rw [hfr] at hp; cases hp
              | ok frame =>
                rw [hfr] at hp
                dsimp only at hp ⊢
                cases htg : tagStr ['\r'] r4 with
                | err e => rw [htg] at hp; cases hp
                | panicked => rw [htg] at hp; cases hp
                | ok r5 a5 =>
                  rw [htg] at hp
                  dsimp only at hp
                  obtain ⟨htg2, hrel4⟩ := tagCR_ok_lowEq hrel3 htg
                  rw [htg2]
                  dsimp only
                  cases htn : Transmit.new frame.asForeign with
                  | none => rw [htn] at hp; cases hp
                  | some t' =>
                    rw [htn] at hp
                    dsimp only at hp
                    cases hp
                    exact ⟨_, rfl, hrel4⟩
        · rw [if_neg hdlc] at hp ⊢
          dsimp only at hp ⊢
          simp only [List.isEmpty_nil, eq_self_iff_true, if_true] at hp ⊢
          cases hfr : (if k = 't' ∨ k = 'T' then
              if dlc ≤ (List.replicate 8 0).length then
                match Frame.new id ((List.replicate 8 0).take dlc) with
                | none => DRes.panicked
                | some f => DRes.ok f
              else DRes.panicked
            else
              match Frame.new_remote id dlc with
              | none => DRes.panicked
              | some f => DRes.ok f) with
          | fail => rw [hfr] at hp; cases hp
          | panicked => rw [hfr] at hp; cases hp
          | ok frame =>
            rw [hfr] at hp
            dsimp only at hp ⊢
            cases htg : tagStr ['\r'] r3 with
            | err e => rw [htg] at hp; cases hp
            | panicked => rw [htg] at hp; cases hp
            | ok r5 a5 =>
              rw [htg] at hp
              dsimp only at hp
              obtain ⟨htg2, hrel4⟩ := tagCR_ok_lowEq hrel2 htg
              rw [htg2]
              dsimp only
              cases htn : Transmit.new frame.asForeign with
              | none => rw [htn] at hp; cases hp
              | some t' =>
                rw [htn] at hp
                dsimp only at hp
                cases hp
                exact ⟨_, rfl, hrel4⟩

/-- C9: `Transmit::try_parse` accepts both uppercase and lowercase hex
digits in the identifier and data fields: for every wire string that parses
completely (empty remainder), replacing any subset of its uppercase hex
letters after the kind character by their lowercase counterparts yields an
input that parses to the same `Transmit` command. (Uppercase letters after
the kind character of a completely parsed command lie only in the
identifier and data hex fields: the dlc field of an accepted command is a
digit `0`–`8` and the terminator is `\r`.) Moreover formatting emits
uppercase hex digits only. -/
theorem claim9_hex_case_insensitive (k : Char) (s₁ s₂ : List Char)
    (t : Transmit) (h : LowEqL s₁ s₂)
    (hp : Transmit.try_parse (k :: s₁) = .ok [] t) :
    Transmit.try_parse (k :: s₂) = .ok [] t ∧
    ∀ v : Nat, v < 16 → (hexDigitUpper v).isLower = false := by
  obtain ⟨r₂, hp2, hrel⟩ := transmit_try_parse_lowEq k h hp
  have hr : r₂ = [] := List.forall₂_nil_left_iff.mp hrel
  subst hr
  exact ⟨hp2, by decide⟩

/-- Witness for C9: `"t7AB1FA\r"` parses to a standard data frame with id
0x7AB and payload byte 0xFA; lowercasing its hex letters to `"t7ab1fa\r"`
parses to the same command. -/
theorem claim9_hex_case_insensitive_w :
    Transmit.try_parse ['t', '7', 'a', 'b', '1', 'f', 'a', '\r'] =
      .ok [] ⟨{ id := CanId.standard 0x7AB, remote := false, dlc := 1,
                data := [0xFA, 0, 0, 0, 0, 0, 0, 0] }⟩ :=
  (claim9_hex_case_insensitive 't'
    ['7', 'A', 'B', '1', 'F', 'A', '\r']
    ['7', 'a', 'b', '1', 'f', 'a', '\r']
    ⟨{ id := CanId.standard 0x7AB, remote := false, dlc := 1,
       data := [0xFA, 0, 0, 0, 0, 0, 0, 0] }⟩
    (List.Forall₂.cons (Or.inl rfl)
      (List.Forall₂.cons (Or.inr (by decide))
        (List.Forall₂.cons (Or.inr (by decide))
          (List.Forall₂.cons (Or.inl rfl)
            (List.Forall₂.cons (Or.inr (by decide))
              (List.Forall₂.cons (Or.inr (by decide))
                (List.Forall₂.cons (Or.inl rfl) List.Forall₂.nil)))))))
    (by decide)).1

end Slcan
